import Mathlib

/-!
Verification of the sequencer metrics instrumentation layer
(`crates/pathfinder/src/sequencer/metrics.rs`).

The embedding models a metric counter by its identity tuple
`(series, method, tag?, reason?)`; `register` produces the list of counter
identities registered at setup, and `with_metrics` is modelled as a pure
function from the request metadata and the awaited result to the returned
result together with the list of counter identities it increments
(in program order).  An `Except String` layer models the `expect` panic in
the rate-limiting classification arm.  `countersEmittedAt` extends the
model to the execution phases of the `with_metrics` future, so that
cancellation before a terminal outcome can be stated.
-/

namespace PathfinderMetrics

/-- Counter identity tuple: series name, method, optional tag, optional
reason, as in the invariant "every tuple ever incremented at runtime must
have been registered during setup". -/
structure Counter where
  series : String
  method : String
  tag : Option String
  reason : Option String
deriving DecidableEq, Repr

/-- Series name constant METRIC_REQUESTS of the source. -/
def METRIC_REQUESTS : String := "sequencer_requests_total"

/-- Series name constant METRIC_FAILED_REQUESTS of the source. -/
def METRIC_FAILED_REQUESTS : String := "sequencer_requests_failed_total"

/-- Both series names, the METRICS constant of the source. -/
def METRICS : List String := [METRIC_REQUESTS, METRIC_FAILED_REQUESTS]

/-- Methods that also get block-tag labelled counters, the
`methods_with_tags` iterator of the source. -/
def methods_with_tags : List String := ["get_block", "get_state_update"]

/-- Block tag labels, the `tags` iterator of the source. -/
def tags : List String := ["latest", "pending"]

/-- Failure reason labels, the `failure_reason` iterator of the source. -/
def failure_reasons : List String := ["starknet", "decode", "rate_limiting"]

/-- Function `register()`, parameterized by the method catalog
`Request::<Method>::METHODS` (the catalog lives outside the metrics
module).  Returns the list of counter identities registered: for both
series, one per catalog method and one per tagged method and tag; for the
failed series additionally one per method and reason and one per tagged
method, tag and reason. -/
def register (METHODS : List String) : List Counter :=
  (METRICS.flatMap fun name =>
    (METHODS.map fun method =>
      { series := name, method := method, tag := none, reason := none }) ++
    (methods_with_tags.flatMap fun method =>
      tags.map fun tag =>
        { series := name, method := method, tag := some tag, reason := none })) ++
  (failure_reasons.flatMap fun failure_reason =>
    (METHODS.map fun method =>
      { series := METRIC_FAILED_REQUESTS, method := method, tag := none,
        reason := some failure_reason }) ++
    (methods_with_tags.flatMap fun method =>
      tags.map fun tag =>
        { series := METRIC_FAILED_REQUESTS, method := method, tag := some tag,
          reason := some failure_reason }))

/-- Type `crate::core::BlockId`: the block-reference variant type consumed
by the `From` impl (Number, Hash, Latest, Pending). -/
inductive BlockId
  | Number (n : Nat)
  | Hash (h : Nat)
  | Latest
  | Pending
deriving DecidableEq, Repr

/-- Enumeration `BlockTag` of the source: None, Latest, Pending. -/
inductive BlockTag
  | None
  | Latest
  | Pending
deriving DecidableEq, Repr

/-- Conversion `impl From<BlockId> for BlockTag`. -/
def BlockTag.ofBlockId : BlockId → BlockTag
  | BlockId.Number _ => BlockTag.None
  | BlockId.Hash _ => BlockTag.None
  | BlockId.Latest => BlockTag.Latest
  | BlockId.Pending => BlockTag.Pending

/-- Method `BlockTag::as_str`. -/
def BlockTag.as_str : BlockTag → Option String
  | BlockTag.None => none
  | BlockTag.Latest => some "latest"
  | BlockTag.Pending => some "pending"

/-- Struct `RequestMetadata` with fields `method` and `tag`. -/
structure RequestMetadata where
  method : String
  tag : BlockTag
deriving DecidableEq, Repr

/-- Constructor `RequestMetadata::new`: tag set to `BlockTag::None`. -/
def RequestMetadata.new (method : String) : RequestMetadata :=
  { method := method, tag := BlockTag.None }

/-- Modelled from the spec: the transport error (`reqwest::Error`) carried
by `SequencerError::ReqwestError` is not under the sources; per the spec it
exposes the queries "is a response-decode error" and "is a transport error
with an associated HTTP status code".  A transport error of status kind
always carries its status code. -/
inductive ReqwestError
  | decode
  | status (code : Nat)
  | other
deriving DecidableEq, Repr

/-- Query `reqwest::Error::is_decode`. -/
def ReqwestError.is_decode : ReqwestError → Bool
  | ReqwestError.decode => true
  | _ => false

/-- Query `reqwest::Error::is_status`. -/
def ReqwestError.is_status : ReqwestError → Bool
  | ReqwestError.status _ => true
  | _ => false

/-- Query `reqwest::Error::status`: the HTTP status code, when the error
is of status kind. -/
def ReqwestError.statusCode : ReqwestError → Option Nat
  | ReqwestError.status code => some code
  | _ => none

/-- HTTP status `reqwest::StatusCode::TOO_MANY_REQUESTS`. -/
def TOO_MANY_REQUESTS : Nat := 429

/-- Modelled from the spec: `SequencerError` (defined in the sequencer
module, not under the sources) has a StarkNet domain-error variant and a
transport-error variant, the two constructors matched in `with_metrics`. -/
inductive SequencerError
  | StarknetError (msg : String)
  | ReqwestError (e : ReqwestError)
deriving DecidableEq, Repr

/-- Or-pattern `"get_block" | "get_state_update"` used by the `if let`
in `increment` and `increment_failed`. -/
def supportsTag (method : String) : Bool :=
  method == "get_block" || method == "get_state_update"

/-- Inner fn `increment` of `with_metrics`: increments
`(counter_name, method)` and, when the method is `get_block` or
`get_state_update` and the tag has a string form, also
`(counter_name, method, tag)`.  Result: the incremented identities,
in order. -/
def increment (counter_name : String) (meta : RequestMetadata) : List Counter :=
  [{ series := counter_name, method := meta.method, tag := none, reason := none }] ++
    match supportsTag meta.method, meta.tag.as_str with
    | true, some tag =>
        [{ series := counter_name, method := meta.method, tag := some tag,
           reason := none }]
    | _, _ => []

/-- Inner fn `increment_failed` of `with_metrics`: increments
`(sequencer_requests_failed_total, method, reason)` and, for tagged
methods with a tag, `(sequencer_requests_failed_total, method, tag, reason)`. -/
def increment_failed (meta : RequestMetadata) (failure_reason : String) :
    List Counter :=
  [{ series := METRIC_FAILED_REQUESTS, method := meta.method, tag := none,
     reason := some failure_reason }] ++
    match supportsTag meta.method, meta.tag.as_str with
    | true, some tag =>
        [{ series := METRIC_FAILED_REQUESTS, method := meta.method,
           tag := some tag, reason := some failure_reason }]
    | _, _ => []

/-- Match `match &e { ... }` inside the `map_err` closure of
`with_metrics`: returns the reason-specific counters incremented for
error `e`.  The `Except String` layer models the
`expect("error kind should be status")` in the rate-limiting guard: per
Rust short-circuiting of `&&`, `e.status()` is unwrapped only after
`e.is_status()` held. -/
def classifyIncrements (meta : RequestMetadata) :
    SequencerError → Except String (List Counter)
  | SequencerError.StarknetError _ =>
      Except.ok (increment_failed meta "starknet")
  | SequencerError.ReqwestError e =>
      if e.is_decode then Except.ok (increment_failed meta "decode")
      else if e.is_status then
        match e.statusCode with
        | some code =>
            if code == TOO_MANY_REQUESTS then
              Except.ok (increment_failed meta "rate_limiting")
            else Except.ok []
        | none => Except.error "error kind should be status"
      else Except.ok []

/-- Function `with_metrics`, as a pure function of the metadata and the
awaited result of the wrapped future: returns the forwarded result
together with the list of counter identities incremented, in program
order (the `Except String` layer models a potential panic in
classification). -/
def with_metrics (T : Type) (meta : RequestMetadata)
    (res : Except SequencerError T) :
    Except String (Except SequencerError T × List Counter) :=
  let pre := increment METRIC_REQUESTS meta
  match res with
  | Except.ok v => Except.ok (Except.ok v, pre)
  | Except.error e =>
      match classifyIncrements meta e with
      | Except.ok reasonCounters =>
          Except.ok (Except.error e,
            pre ++ increment METRIC_FAILED_REQUESTS meta ++ reasonCounters)
      | Except.error msg => Except.error msg

/-- Counters `with_metrics` increments for a given terminal outcome
(empty on the panic channel, which never fires). -/
def emittedCounters (meta : RequestMetadata)
    (res : Except SequencerError Unit) : List Counter :=
  match with_metrics Unit meta res with
  | Except.ok (_, cs) => cs
  | Except.error _ => []

/-- Execution phases of the `with_metrics` future: not yet polled;
started (the leading `increment` on line 141 ran) but still awaiting `f`;
completed with a terminal result.  A cancelled call stops in one of the
first two phases. -/
inductive Phase
  | notStarted
  | suspended
  | completed (res : Except SequencerError Unit)

/-- Counters incremented by `with_metrics` up to a given phase of its
execution: none before the body runs, the `sequencer_requests_total`
increments once started, and the full emission on completion. -/
def countersEmittedAt (meta : RequestMetadata) : Phase → List Counter
  | Phase.notStarted => []
  | Phase.suspended => increment METRIC_REQUESTS meta
  | Phase.completed res => emittedCounters meta res

/-- Predicate "carries a structured domain-level error from the service". -/
def isStarknetErr : SequencerError → Bool
  | SequencerError.StarknetError _ => true
  | SequencerError.ReqwestError _ => false

/-- Predicate "the response body could not be decoded". -/
def isDecodeErr : SequencerError → Bool
  | SequencerError.StarknetError _ => false
  | SequencerError.ReqwestError e => e.is_decode

/-- Predicate "transport failure whose HTTP status code equals 429". -/
def isRateLimited : SequencerError → Bool
  | SequencerError.StarknetError _ => false
  | SequencerError.ReqwestError e =>
      e.is_status && e.statusCode == some TOO_MANY_REQUESTS

/-- First-match-wins reason assignment described by the spec's ordered
classification rules (spec-side definition, compared against
`classifyIncrements`). -/
def firstMatchReason : SequencerError → Option String
  | SequencerError.StarknetError _ => some "starknet"
  | SequencerError.ReqwestError e =>
      if e.is_decode then some "decode"
      else if e.is_status && e.statusCode == some TOO_MANY_REQUESTS then
        some "rate_limiting"
      else none

/-- Occurrence count of a counter identity in an increment list. -/
def countOf (cs : List Counter) (c : Counter) : Nat := cs.count c

/-- A method supports tags exactly when it is in `methods_with_tags`. -/
lemma supportsTag_iff {m : String} :
    supportsTag m = true ↔ m ∈ methods_with_tags := by
  simp [supportsTag, methods_with_tags]

/-- Every string form of a block tag is one of the registered tag labels. -/
lemma as_str_mem_tags {b : BlockTag} {t : String} (h : b.as_str = some t) :
    t ∈ tags := by
  cases b <;> simp [BlockTag.as_str] at h <;> simp [tags, ← h]

/-- Characterization of the counter identities produced by `register`. -/
lemma mem_register_iff (METHODS : List String) (c : Counter) :
    c ∈ register METHODS ↔
      ((c.series ∈ METRICS ∧ c.method ∈ METHODS ∧ c.tag = none ∧ c.reason = none) ∨
       (c.series ∈ METRICS ∧ c.method ∈ methods_with_tags ∧
          (∃ t ∈ tags, c.tag = some t) ∧ c.reason = none) ∨
       (c.series = METRIC_FAILED_REQUESTS ∧ c.method ∈ METHODS ∧ c.tag = none ∧
          ∃ r ∈ failure_reasons, c.reason = some r) ∨
       (c.series = METRIC_FAILED_REQUESTS ∧ c.method ∈ methods_with_tags ∧
          (∃ t ∈ tags, c.tag = some t) ∧ ∃ r ∈ failure_reasons, c.reason = some r)) := by
  obtain ⟨s, m, tg, rs⟩ := c
  simp only [register, List.mem_append, List.mem_flatMap, List.mem_map]
  constructor
  · rintro ((⟨name, hname, h⟩) | ⟨r, hr, h⟩)
    · rcases h with ⟨method, hmeth, heq⟩ | ⟨method, hmeth, tag, htag, heq⟩
      · cases heq; exact Or.inl ⟨hname, hmeth, rfl, rfl⟩
      · cases heq; exact Or.inr (Or.inl ⟨hname, hmeth, ⟨tag, htag, rfl⟩, rfl⟩)
    · rcases h with ⟨method, hmeth, heq⟩ | ⟨method, hmeth, tag, htag, heq⟩
      · cases heq; exact Or.inr (Or.inr (Or.inl ⟨rfl, hmeth, rfl, r, hr, rfl⟩))
      · cases heq; exact Or.inr (Or.inr (Or.inr ⟨rfl, hmeth, ⟨tag, htag, rfl⟩, r, hr, rfl⟩))
  · rintro (⟨hs, hm, rfl, rfl⟩ | ⟨hs, hm, ⟨t, ht, rfl⟩, rfl⟩ |
      ⟨rfl, hm, rfl, r, hr, rfl⟩ | ⟨rfl, hm, ⟨t, ht, rfl⟩, r, hr, rfl⟩)
    · exact Or.inl ⟨s, hs, Or.inl ⟨m, hm, rfl⟩⟩
    · exact Or.inl ⟨s, hs, Or.inr ⟨m, hm, t, ht, rfl⟩⟩
    · exact Or.inr ⟨r, hr, Or.inl ⟨m, hm, rfl⟩⟩
    · exact Or.inr ⟨r, hr, Or.inr ⟨m, hm, t, ht, rfl⟩⟩

/-- The classification match never panics and agrees with the
first-match-wins reason assignment. -/
lemma classify_eq (meta : RequestMetadata) (e : SequencerError) :
    classifyIncrements meta e =
      Except.ok ((firstMatchReason e).elim [] (increment_failed meta)) := by
  cases e with
  | StarknetError msg => rfl
  | ReqwestError re =>
      cases re with
      | decode => rfl
      | status code =>
          by_cases hc : code = TOO_MANY_REQUESTS
          · subst hc; rfl
          · simp [classifyIncrements, firstMatchReason, ReqwestError.is_decode,
              ReqwestError.is_status, ReqwestError.statusCode, hc]
      | other => rfl

/-- Normal form of `with_metrics`: always `Except.ok`, forwarding the
result, with the increments determined by the outcome. -/
lemma with_metrics_ok (T : Type) (meta : RequestMetadata)
    (res : Except SequencerError T) :
    with_metrics T meta res =
      Except.ok (res,
        match res with
        | Except.ok _ => increment METRIC_REQUESTS meta
        | Except.error e =>
            increment METRIC_REQUESTS meta ++
              increment METRIC_FAILED_REQUESTS meta ++
              (firstMatchReason e).elim [] (increment_failed meta)) := by
  cases res with
  | ok v => rfl
  | error e => simp [with_metrics, classify_eq]

/-- Normal form of `emittedCounters`. -/
lemma emittedCounters_eq (meta : RequestMetadata)
    (res : Except SequencerError Unit) :
    emittedCounters meta res =
      match res with
      | Except.ok _ => increment METRIC_REQUESTS meta
      | Except.error e =>
          increment METRIC_REQUESTS meta ++
            increment METRIC_FAILED_REQUESTS meta ++
            (firstMatchReason e).elim [] (increment_failed meta) := by
  rw [emittedCounters, with_metrics_ok]
  cases res <;> rfl

/-- Shape of the identities produced by `increment`. -/
lemma mem_increment {c : Counter} {name : String} {meta : RequestMetadata}
    (h : c ∈ increment name meta) :
    c = { series := name, method := meta.method, tag := none, reason := none } ∨
    (meta.method ∈ methods_with_tags ∧ ∃ t ∈ tags,
      meta.tag.as_str = some t ∧
      c = { series := name, method := meta.method, tag := some t, reason := none }) := by
  unfold increment at h
  cases hs : supportsTag meta.method with
  | false => rw [hs] at h; simp at h; exact Or.inl h
  | true =>
      rw [hs] at h
      cases ht : meta.tag.as_str with
      | none => rw [ht] at h; simp at h; exact Or.inl h
      | some t =>
          rw [ht] at h
          simp at h
          rcases h with rfl | rfl
          · exact Or.inl rfl
          · exact Or.inr ⟨supportsTag_iff.mp hs, t, as_str_mem_tags ht, rfl, rfl⟩

/-- Shape of the identities produced by `increment_failed`. -/
lemma mem_increment_failed {c : Counter} {meta : RequestMetadata} {r : String}
    (h : c ∈ increment_failed meta r) :
    c = { series := METRIC_FAILED_REQUESTS, method := meta.method, tag := none,
          reason := some r } ∨
    (meta.method ∈ methods_with_tags ∧ ∃ t ∈ tags,
      meta.tag.as_str = some t ∧
      c = { series := METRIC_FAILED_REQUESTS, method := meta.method,
            tag := some t, reason := some r }) := by
  unfold increment_failed at h
  cases hs : supportsTag meta.method with
  | false => rw [hs] at h; simp at h; exact Or.inl h
  | true =>
      rw [hs] at h
      cases ht : meta.tag.as_str with
      | none => rw [ht] at h; simp at h; exact Or.inl h
      | some t =>
          rw [ht] at h
          simp at h
          rcases h with rfl | rfl
          · exact Or.inl rfl
          · exact Or.inr ⟨supportsTag_iff.mp hs, t, as_str_mem_tags ht, rfl, rfl⟩

/-- Every assigned reason is one of the registered reason labels. -/
lemma firstMatchReason_mem {e : SequencerError} {r : String}
    (h : firstMatchReason e = some r) : r ∈ failure_reasons := by
  cases e with
  | StarknetError msg =>
      simp [firstMatchReason] at h; simp [failure_reasons, ← h]
  | ReqwestError re =>
      simp only [firstMatchReason] at h
      split at h
      · simp at h; simp [failure_reasons, ← h]
      · split at h
        · simp at h; simp [failure_reasons, ← h]
        · simp at h

/-- The reason-less identity occurs exactly once in an `increment` batch. -/
lemma count_increment_plain (name : String) (meta : RequestMetadata) :
    countOf (increment name meta)
      { series := name, method := meta.method, tag := none, reason := none } = 1 := by
  unfold increment
  cases hs : supportsTag meta.method with
  | false => simp [countOf]
  | true =>
      cases ht : meta.tag.as_str with
      | none => simp [countOf]
      | some t => simp [countOf, List.count_cons]

/-- The tagged identity occurs exactly once in an `increment` batch for a
tag-supporting method with a concrete tag. -/
lemma count_increment_tagged (name : String) (meta : RequestMetadata) (t : String)
    (hs : supportsTag meta.method = true) (ht : meta.tag.as_str = some t) :
    countOf (increment name meta)
      { series := name, method := meta.method, tag := some t, reason := none } = 1 := by
  unfold increment
  rw [hs, ht]
  simp [countOf, List.count_cons]

/-- An `increment` batch touches no series other than its own. -/
lemma increment_series (name : String) (meta : RequestMetadata) :
    (increment name meta).filter (fun c => c.series != name) = [] := by
  unfold increment
  cases hs : supportsTag meta.method with
  | false => simp
  | true =>
      cases ht : meta.tag.as_str with
      | none => simp
      | some t => simp

/-- The two series names differ. -/
lemma series_ne_requests : METRIC_FAILED_REQUESTS ≠ METRIC_REQUESTS := by decide

/-- An identity of a different series never occurs in an `increment` batch. -/
lemma count_increment_ne_series (name : String) (meta : RequestMetadata)
    (c : Counter) (h : c.series ≠ name) :
    countOf (increment name meta) c = 0 := by
  rw [countOf, List.count_eq_zero]
  intro hc
  rcases mem_increment hc with rfl | ⟨_, t, _, _, rfl⟩ <;> exact h rfl

/-- An `increment` batch contains no identity of another series. -/
lemma filter_increment_other (name other : String) (meta : RequestMetadata)
    (h : name ≠ other) :
    (increment name meta).filter (fun c => c.series == other) = [] := by
  unfold increment
  cases hs : supportsTag meta.method with
  | false => simp [h]
  | true =>
      cases ht : meta.tag.as_str with
      | none => simp [h]
      | some t => simp [h]

/-- An `increment` batch contains no reason-labelled identity. -/
lemma filter_increment_reason (name : String) (meta : RequestMetadata) :
    (increment name meta).filter (fun c => c.reason.isSome) = [] := by
  unfold increment
  cases hs : supportsTag meta.method with
  | false => simp
  | true =>
      cases ht : meta.tag.as_str with
      | none => simp
      | some t => simp

/-- C1: assuming registration ran before traffic and every metadata method
is drawn from the catalog (which contains `get_block` and
`get_state_update`), every counter tuple that `with_metrics` increments,
on any success or failure outcome, is one of the tuples registered by
`register`. -/
theorem C1_pre_registration (METHODS : List String)
    (hgb : "get_block" ∈ METHODS) (hgs : "get_state_update" ∈ METHODS)
    (meta : RequestMetadata) (hm : meta.method ∈ METHODS)
    (res : Except SequencerError Unit) (c : Counter)
    (hc : c ∈ emittedCounters meta res) : c ∈ register METHODS := by
  have hser : METRIC_REQUESTS ∈ METRICS ∧ METRIC_FAILED_REQUESTS ∈ METRICS := by
    constructor <;> simp [METRICS]
  rw [emittedCounters_eq] at hc
  cases res with
  | ok v =>
      rcases mem_increment hc with rfl | ⟨hmwt, t, htags, _, rfl⟩
      · exact (mem_register_iff METHODS _).mpr (Or.inl ⟨hser.1, hm, rfl, rfl⟩)
      · exact (mem_register_iff METHODS _).mpr
          (Or.inr (Or.inl ⟨hser.1, hmwt, ⟨t, htags, rfl⟩, rfl⟩))
  | error e =>
      simp only [List.mem_append] at hc
      rcases hc with (hc | hc) | hc
      · rcases mem_increment hc with rfl | ⟨hmwt, t, htags, _, rfl⟩
        · exact (mem_register_iff METHODS _).mpr (Or.inl ⟨hser.1, hm, rfl, rfl⟩)
        · exact (mem_register_iff METHODS _).mpr
            (Or.inr (Or.inl ⟨hser.1, hmwt, ⟨t, htags, rfl⟩, rfl⟩))
      · rcases mem_increment hc with rfl | ⟨hmwt, t, htags, _, rfl⟩
        · exact (mem_register_iff METHODS _).mpr (Or.inl ⟨hser.2, hm, rfl, rfl⟩)
        · exact (mem_register_iff METHODS _).mpr
            (Or.inr (Or.inl ⟨hser.2, hmwt, ⟨t, htags, rfl⟩, rfl⟩))
      · cases hr : firstMatchReason e with
        | none => rw [hr] at hc; simp at hc
        | some r =>
            rw [hr] at hc
            have hrmem := firstMatchReason_mem hr
            rcases mem_increment_failed hc with rfl | ⟨hmwt, t, htags, _, rfl⟩
            · exact (mem_register_iff METHODS _).mpr
                (Or.inr (Or.inr (Or.inl ⟨rfl, hm, rfl, r, hrmem, rfl⟩)))
            · exact (mem_register_iff METHODS _).mpr
                (Or.inr (Or.inr (Or.inr ⟨rfl, hmwt, ⟨t, htags, rfl⟩, r, hrmem, rfl⟩)))

/-- Witness for C1 at a concrete catalog, metadata and failing outcome. -/
theorem C1_witness :
    ({ series := "sequencer_requests_failed_total", method := "get_block",
       tag := some "latest", reason := some "starknet" } : Counter)
      ∈ register ["get_block", "get_state_update"] :=
  C1_pre_registration ["get_block", "get_state_update"] (by decide) (by decide)
    { method := "get_block", tag := BlockTag.Latest } (by decide)
    (Except.error (SequencerError.StarknetError "")) _ (by decide)

/-- C2: `register` registers exactly the exhaustive cross-product of the
label taxonomy: for both series one counter per catalog method, one per
tagged method and tag; for the failed series only, one per catalog method
and reason and one per tagged method, tag and reason — and nothing else. -/
theorem C2_register_exhaustive (METHODS : List String) (c : Counter) :
    c ∈ register METHODS ↔
      ((c.series ∈ METRICS ∧ c.method ∈ METHODS ∧ c.tag = none ∧ c.reason = none) ∨
       (c.series ∈ METRICS ∧ c.method ∈ methods_with_tags ∧
          (∃ t ∈ tags, c.tag = some t) ∧ c.reason = none) ∨
       (c.series = METRIC_FAILED_REQUESTS ∧ c.method ∈ METHODS ∧ c.tag = none ∧
          ∃ r ∈ failure_reasons, c.reason = some r) ∨
       (c.series = METRIC_FAILED_REQUESTS ∧ c.method ∈ methods_with_tags ∧
          (∃ t ∈ tags, c.tag = some t) ∧ ∃ r ∈ failure_reasons, c.reason = some r)) :=
  mem_register_iff METHODS c

/-- C3: failure classification applies ordered, mutually exclusive,
first-match-wins rules — StarkNet error, else decode error, else transport
error with status 429 — and every incremented reason-specific counter
carries that single assigned reason, so at most one reason family is
incremented per failing call. -/
theorem C3_ordered_classification (meta : RequestMetadata) (e : SequencerError) :
    classifyIncrements meta e =
      Except.ok (if isStarknetErr e then increment_failed meta "starknet"
        else if isDecodeErr e then increment_failed meta "decode"
        else if isRateLimited e then increment_failed meta "rate_limiting"
        else []) ∧
    ((firstMatchReason e).elim [] (increment_failed meta)).filter
      (fun c => c.reason != firstMatchReason e) = [] := by
  constructor
  · rw [classify_eq]
    cases e with
    | StarknetError msg => rfl
    | ReqwestError re =>
        cases re with
        | decode => rfl
        | status code =>
            by_cases hc : code = TOO_MANY_REQUESTS
            · subst hc; rfl
            · simp [firstMatchReason, isStarknetErr, isDecodeErr, isRateLimited,
                ReqwestError.is_decode, ReqwestError.is_status,
                ReqwestError.statusCode, hc]
        | other => rfl
  · cases hr : firstMatchReason e with
    | none => rfl
    | some r =>
        simp only [Option.elim]
        unfold increment_failed
        cases hs : supportsTag meta.method with
        | false => simp
        | true =>
            cases ht : meta.tag.as_str with
            | none => simp
            | some t => simp

/-- C4: `with_metrics` is transparent — for every metadata and every
outcome it returns exactly the wrapped operation's result unchanged, its
only effect being the increment list. -/
theorem C4_transparent (T : Type) (meta : RequestMetadata)
    (res : Except SequencerError T) :
    ∃ cs : List Counter, with_metrics T meta res = Except.ok (res, cs) :=
  ⟨_, with_metrics_ok T meta res⟩

/-- C5 counterexample: a call with method `get_block` cancelled while
suspended awaiting the wrapped operation has already incremented the
`sequencer_requests_total` counter once, refuting the claim that every
counter is left unchanged by cancellation. -/
theorem C5_counterexample :
    countersEmittedAt (RequestMetadata.new "get_block") Phase.suspended ≠ [] ∧
    countOf (countersEmittedAt (RequestMetadata.new "get_block") Phase.suspended)
      { series := METRIC_REQUESTS, method := "get_block", tag := none,
        reason := none } = 1 := by
  decide

/-- C5 (amended): a call cancelled before the decorator is first polled
leaves all counters unchanged; one cancelled after the decorator started
but before a terminal result has incremented only
`sequencer_requests_total` counters (the method counter exactly once),
and no `sequencer_requests_failed_total` counter. -/
theorem C5_amended_cancellation (meta : RequestMetadata) :
    countersEmittedAt meta Phase.notStarted = [] ∧
    (countersEmittedAt meta Phase.suspended).filter
      (fun c => c.series != METRIC_REQUESTS) = [] ∧
    countOf (countersEmittedAt meta Phase.suspended)
      { series := METRIC_REQUESTS, method := meta.method, tag := none,
        reason := none } = 1 := by
  refine ⟨rfl, ?_, ?_⟩
  · exact increment_series METRIC_REQUESTS meta
  · exact count_increment_plain METRIC_REQUESTS meta

/-- C6: a `get_block`/`Latest` call failing with a classified error
increments all four failed counters — `(get_block)`,
`(get_block, latest)`, `(get_block, reason)` and
`(get_block, latest, reason)` — each exactly once. -/
theorem C6_tag_propagation (e : SequencerError) (r : String)
    (h : firstMatchReason e = some r) :
    countOf (emittedCounters { method := "get_block", tag := BlockTag.Latest }
        (Except.error e))
      { series := METRIC_FAILED_REQUESTS, method := "get_block", tag := none,
        reason := none } = 1 ∧
    countOf (emittedCounters { method := "get_block", tag := BlockTag.Latest }
        (Except.error e))
      { series := METRIC_FAILED_REQUESTS, method := "get_block",
        tag := some "latest", reason := none } = 1 ∧
    countOf (emittedCounters { method := "get_block", tag := BlockTag.Latest }
        (Except.error e))
      { series := METRIC_FAILED_REQUESTS, method := "get_block", tag := none,
        reason := some r } = 1 ∧
    countOf (emittedCounters { method := "get_block", tag := BlockTag.Latest }
        (Except.error e))
      { series := METRIC_FAILED_REQUESTS, method := "get_block",
        tag := some "latest", reason := some r } = 1 := by
  have he : emittedCounters { method := "get_block", tag := BlockTag.Latest }
      (Except.error e) =
      [{ series := METRIC_REQUESTS, method := "get_block", tag := none,
         reason := none },
       { series := METRIC_REQUESTS, method := "get_block", tag := some "latest",
         reason := none },
       { series := METRIC_FAILED_REQUESTS, method := "get_block", tag := none,
         reason := none },
       { series := METRIC_FAILED_REQUESTS, method := "get_block",
         tag := some "latest", reason := none },
       { series := METRIC_FAILED_REQUESTS, method := "get_block", tag := none,
         reason := some r },
       { series := METRIC_FAILED_REQUESTS, method := "get_block",
         tag := some "latest", reason := some r }] := by
    rw [emittedCounters_eq]
    simp [h, increment, increment_failed, supportsTag, BlockTag.as_str]
  rw [he]
  refine ⟨?_, ?_, ?_, ?_⟩ <;>
    simp [countOf, List.count_cons, METRIC_REQUESTS, METRIC_FAILED_REQUESTS]

/-- Witness for C6 at a concrete StarkNet error. -/
theorem C6_witness :
    countOf (emittedCounters { method := "get_block", tag := BlockTag.Latest }
        (Except.error (SequencerError.StarknetError "")))
      { series := METRIC_FAILED_REQUESTS, method := "get_block",
        tag := some "latest", reason := some "starknet" } = 1 :=
  (C6_tag_propagation (SequencerError.StarknetError "") "starknet" (by decide)).2.2.2

/-- C7: on a successful outcome `with_metrics` increments
`sequencer_requests_total(method)` exactly once, the tagged variant
exactly once when the method supports tags and the tag has a string
form, and no `sequencer_requests_failed_total` counter of any shape. -/
theorem C7_success_frame (meta : RequestMetadata) :
    countOf (emittedCounters meta (Except.ok ()))
      { series := METRIC_REQUESTS, method := meta.method, tag := none,
        reason := none } = 1 ∧
    (emittedCounters meta (Except.ok ())).filter
      (fun c => c.series == METRIC_FAILED_REQUESTS) = [] ∧
    ∀ t, supportsTag meta.method = true → meta.tag.as_str = some t →
      countOf (emittedCounters meta (Except.ok ()))
        { series := METRIC_REQUESTS, method := meta.method, tag := some t,
          reason := none } = 1 := by
  have he : emittedCounters meta (Except.ok ()) = increment METRIC_REQUESTS meta := by
    rw [emittedCounters_eq]
  rw [he]
  refine ⟨count_increment_plain METRIC_REQUESTS meta, ?_, ?_⟩
  · exact filter_increment_other METRIC_REQUESTS METRIC_FAILED_REQUESTS meta (by decide)
  · intro t hs ht
    exact count_increment_tagged METRIC_REQUESTS meta t hs ht

/-- Witness for C7 at a tagged method with a concrete tag. -/
theorem C7_witness :
    countOf (emittedCounters { method := "get_block", tag := BlockTag.Latest }
        (Except.ok ()))
      { series := METRIC_REQUESTS, method := "get_block", tag := some "latest",
        reason := none } = 1 :=
  (C7_success_frame { method := "get_block", tag := BlockTag.Latest }).2.2
    "latest" (by decide) (by decide)

/-- C8: a failing call whose error matches none of the three
classification rules increments only the reason-less failed counters —
the method counter exactly once, the tagged variant exactly once when
applicable — and zero reason-labelled counters. -/
theorem C8_unclassified (meta : RequestMetadata) (e : SequencerError)
    (h : firstMatchReason e = none) :
    countOf (emittedCounters meta (Except.error e))
      { series := METRIC_FAILED_REQUESTS, method := meta.method, tag := none,
        reason := none } = 1 ∧
    (emittedCounters meta (Except.error e)).filter
      (fun c => c.reason.isSome) = [] ∧
    ∀ t, supportsTag meta.method = true → meta.tag.as_str = some t →
      countOf (emittedCounters meta (Except.error e))
        { series := METRIC_FAILED_REQUESTS, method := meta.method, tag := some t,
          reason := none } = 1 := by
  have he : emittedCounters meta (Except.error e) =
      increment METRIC_REQUESTS meta ++ increment METRIC_FAILED_REQUESTS meta := by
    rw [emittedCounters_eq]
    simp [h]
  rw [he]
  refine ⟨?_, ?_, ?_⟩
  · rw [countOf, List.count_append]
    have h1 := count_increment_ne_series METRIC_REQUESTS meta
      { series := METRIC_FAILED_REQUESTS, method := meta.method, tag := none,
        reason := none } series_ne_requests
    have h2 := count_increment_plain METRIC_FAILED_REQUESTS meta
    rw [countOf] at h1 h2
    omega
  · rw [List.filter_append, filter_increment_reason, filter_increment_reason]
    rfl
  · intro t hs ht
    rw [countOf, List.count_append]
    have h1 := count_increment_ne_series METRIC_REQUESTS meta
      { series := METRIC_FAILED_REQUESTS, method := meta.method, tag := some t,
        reason := none } series_ne_requests
    have h2 := count_increment_tagged METRIC_FAILED_REQUESTS meta t hs ht
    rw [countOf] at h1 h2
    omega

/-- Witness for C8 at a transport error with HTTP status 500. -/
theorem C8_witness :
    countOf (emittedCounters { method := "get_block", tag := BlockTag.Latest }
        (Except.error (SequencerError.ReqwestError (ReqwestError.status 500))))
      { series := METRIC_FAILED_REQUESTS, method := "get_block", tag := none,
        reason := none } = 1 :=
  (C8_unclassified { method := "get_block", tag := BlockTag.Latest }
    (SequencerError.ReqwestError (ReqwestError.status 500)) (by decide)).1

/-- C9: block-tag classification is total and pure — `Number` and `Hash`
map to `None`, `Latest` to `Latest`, `Pending` to `Pending` — and
`as_str` maps `None` to no label, `Latest` to "latest" and `Pending` to
"pending". -/
theorem C9_block_tag (n h : Nat) :
    BlockTag.ofBlockId (BlockId.Number n) = BlockTag.None ∧
    BlockTag.ofBlockId (BlockId.Hash h) = BlockTag.None ∧
    BlockTag.ofBlockId BlockId.Latest = BlockTag.Latest ∧
    BlockTag.ofBlockId BlockId.Pending = BlockTag.Pending ∧
    BlockTag.as_str BlockTag.None = none ∧
    BlockTag.as_str BlockTag.Latest = some "latest" ∧
    BlockTag.as_str BlockTag.Pending = some "pending" :=
  ⟨rfl, rfl, rfl, rfl, rfl, rfl, rfl⟩

/-- C10: the `expect("error kind should be status")` in the rate-limiting
arm can never panic — classification succeeds on every error value, since
the guard checks `is_status` before the status is unwrapped and a
status-kind transport error always carries its code. -/
theorem C10_no_panic (meta : RequestMetadata) (e : SequencerError) :
    ∃ cs : List Counter, classifyIncrements meta e = Except.ok cs :=
  ⟨_, classify_eq meta e⟩

end PathfinderMetrics
